import Mathlib

/-!
Shallow embedding of the commerce core of the Nextjs-Ecommerce storefront:
cart management (server/actions/cart.ts), checkout and payment reconciliation
(server/actions/checkout.ts), order administration (server/actions/admin.ts),
and product inventory administration (server/actions/products.ts).

Conventions of the embedding:
- Database tables become functions from string ids to optional records;
  a Prisma `update where id` becomes a pointwise functional update.
- Monetary amounts are rationals; quantities and inventory counts are
  integers (Prisma `Int` columns; a Prisma `decrement` can drive them
  negative, so `Int` rather than `Nat`).
- Side effects that do not touch the data model (emails, cache-tag
  revalidation, permission checks of the authenticated caller) are omitted;
  each definition's doc comment notes what was dropped.
- Fallible actions return an error value or an `Except`; the top-level
  `try/catch` of every server action returns the state unchanged on the
  error paths modelled here, because the error is raised before any write.
-/

/-- A row of the `Product` table, restricted to the columns the commerce
core reads: `inventory`, `isActive` and the unit `price`. -/
structure Product where
  inventory : Int
  isActive : Bool
  price : ℚ
deriving DecidableEq, Repr

/-- The `Product` table: product id to row. -/
def Products : Type := String → Option Product

/-- Prisma `product.update (where id = pid) data f`: modify the row with id
`pid` when it exists, leave every other row alone. -/
def updateProduct (ps : Products) (pid : String) (f : Product → Product) : Products :=
  fun q => if q = pid then (ps q).map f else ps q

/-- The six values of the Prisma `OrderStatus` enum. -/
inductive OrderStatus
  | PENDING
  | PROCESSING
  | SHIPPED
  | DELIVERED
  | CANCELLED
  | REFUNDED
deriving DecidableEq, Repr

/-- A row of the `OrderItem` table: product reference, quantity and the
price snapshot taken at purchase. -/
structure OrderItem where
  productId : String
  quantity : Int
  price : ℚ
deriving DecidableEq, Repr

/-- A row of the `Order` table, restricted to the columns the claims
mention. `userId` is nullable (guest checkout), `paidAt` and `cancelledAt`
are nullable timestamps (modelled as natural-number instants). -/
structure Order where
  userId : Option String
  status : OrderStatus
  items : List OrderItem
  subtotal : ℚ
  shippingCost : ℚ
  tax : ℚ
  total : ℚ
  trackingNumber : Option String
  notes : Option String
  paidAt : Option Nat
  cancelledAt : Option Nat
deriving DecidableEq, Repr

/-- The `Order` table: order id to row. -/
def Orders : Type := String → Option Order

/-- The slice of the database the commerce core mutates. -/
structure DB where
  products : Products
  orders : Orders

/-- Write one order row, leaving the rest of the table alone. -/
def putOrder (os : Orders) (orderId : String) (o : Order) : Orders :=
  fun oid => if oid = orderId then some o else os oid

/-! ## Inventory administration (`updateProductInventory`, products.ts 236-277) -/

/-- The `operation` argument of `updateProductInventory`
(`'SET' | 'ADD' | 'SUBTRACT'`, default `'SET'`). -/
inductive InventoryOp
  | SET
  | ADD
  | SUBTRACT
deriving DecidableEq, Repr

/-- `updateProductInventory(productId, quantity, operation)` from
server/actions/products.ts lines 236-277. Looks the product up, computes
`newQuantity` (`SET` keeps `quantity`, `ADD` adds to the stored inventory,
`SUBTRACT` takes `Math.max(0, inventory - quantity)`), writes it back and
reports success; a missing product reports failure with no write. The
low-stock alert email and cache revalidation are pure side effects and are
omitted. -/
def updateProductInventory (ps : Products) (pid : String) (quantity : Int)
    (op : InventoryOp) : Products × Bool :=
  match ps pid with
  | none => (ps, false)
  | some p =>
    let newQuantity : Int :=
      match op with
      | InventoryOp.SET => quantity
      | InventoryOp.ADD => p.inventory + quantity
      | InventoryOp.SUBTRACT => max 0 (p.inventory - quantity)
    (updateProduct ps pid (fun q => { q with inventory := newQuantity }), true)

/-! ## Order status administration (`updateOrderStatus`, admin.ts 11-66) -/

/-- The `z.enum` check of `updateOrderStatusSchema` (lib/validators.ts
120-124): the submitted status string parses exactly when it is one of the
six enum values; any other string makes `schema.parse` throw. -/
def parseOrderStatus (s : String) : Option OrderStatus :=
  if s = "PENDING" then some OrderStatus.PENDING
  else if s = "PROCESSING" then some OrderStatus.PROCESSING
  else if s = "SHIPPED" then some OrderStatus.SHIPPED
  else if s = "DELIVERED" then some OrderStatus.DELIVERED
  else if s = "CANCELLED" then some OrderStatus.CANCELLED
  else if s = "REFUNDED" then some OrderStatus.REFUNDED
  else none

/-- Prisma leaves a column unchanged when the value supplied in `data` is
`undefined`; `updateOrderStatus` passes `trackingNumber`/`notes` straight
from optional form fields, so `none` keeps the stored value. -/
def keepIfNone (newVal oldVal : Option String) : Option String :=
  match newVal with
  | none => oldVal
  | some v => some v

/-- `updateOrderStatus(orderId, formData)` from server/actions/admin.ts
lines 11-66. After the schema check it updates the order row directly:
there is no read of the current status and no transition check — whatever
enum value was submitted is stored. A failed parse or a missing order row
ends in the catch branch with no write. The permission check, the
shipped/delivered notification email and cache revalidation are omitted. -/
def updateOrderStatus (os : Orders) (orderId : String) (status : String)
    (trackingNumber notes : Option String) : Orders × Bool :=
  match parseOrderStatus status with
  | none => (os, false)
  | some st =>
    match os orderId with
    | none => (os, false)
    | some o =>
      (putOrder os orderId
        { o with
          status := st
          trackingNumber := keepIfNone trackingNumber o.trackingNumber
          notes := keepIfNone notes o.notes },
       true)

/-! ## Concrete rows used by witnesses and counterexamples -/

/-- A two-product catalog: product A with 5 in stock, product B with 1. -/
def demoProducts : Products := fun pid =>
  if pid = "A" then some { inventory := 5, isActive := true, price := 10 }
  else if pid = "B" then some { inventory := 1, isActive := true, price := 20 }
  else none

/-- An order for two units of product A that has already been delivered. -/
def demoDeliveredOrder : Order :=
  { userId := some ("u1")
    status := OrderStatus.DELIVERED
    items := [⟨"A", 2, 10⟩]
    subtotal := 20
    shippingCost := 0
    tax := 0
    total := 20
    trackingNumber := none
    notes := none
    paidAt := some 1
    cancelledAt := none }

/-- An order table holding only `demoDeliveredOrder` under id o1. -/
def demoOrders : Orders := fun oid =>
  if oid = "o1" then some demoDeliveredOrder else none

/-- Claim C10: `updateProductInventory` with operation SUBTRACT sets the
inventory to `max 0 (i - q)` (so an admin SUBTRACT can never drive the
inventory negative), with ADD it sets `i + q`, and with SET it sets `q`. -/
theorem updateProductInventory_ops (ps : Products) (pid : String) (p : Product)
    (q : Int) (hp : ps pid = some p) (hi : 0 ≤ p.inventory) (hq : 0 ≤ q) :
    ((updateProductInventory ps pid q InventoryOp.SUBTRACT).1 pid
        = some { p with inventory := max 0 (p.inventory - q) }
      ∧ 0 ≤ max 0 (p.inventory - q))
    ∧ (updateProductInventory ps pid q InventoryOp.ADD).1 pid
        = some { p with inventory := p.inventory + q }
    ∧ (updateProductInventory ps pid q InventoryOp.SET).1 pid
        = some { p with inventory := q } := by
  refine ⟨⟨?_, le_max_left 0 _⟩, ?_, ?_⟩ <;>
    simp [updateProductInventory, updateProduct, hp]

/-- Witness for C10: subtracting 8 from product A's stock of 5 floors at 0. -/
theorem updateProductInventory_ops_witness :
    (updateProductInventory demoProducts ("A") 8 InventoryOp.SUBTRACT).1 ("A")
      = some { inventory := max 0 ((5 : Int) - 8), isActive := true, price := 10 } :=
  (updateProductInventory_ops demoProducts ("A")
    { inventory := 5, isActive := true, price := 10 } 8 (by decide) (by decide)
    (by decide)).1.1

/-- Claim C3 counterexample: requesting the transition DELIVERED to
PROCESSING on a delivered order does not fail — `updateOrderStatus` reports
success and the stored status becomes PROCESSING, so the order record is
changed. -/
theorem updateOrderStatus_delivered_overwritten :
    (updateOrderStatus demoOrders ("o1") ("PROCESSING") none none).2 = true
    ∧ ((updateOrderStatus demoOrders ("o1") ("PROCESSING") none none).1 ("o1")).map
        Order.status = some OrderStatus.PROCESSING
    ∧ some OrderStatus.PROCESSING ≠ some OrderStatus.DELIVERED := by
  refine ⟨rfl, rfl, by decide⟩

/-- Claim C3 (amended): `updateOrderStatus` performs no lifecycle check at
all — any request whose status string is one of the six enum values is
accepted and overwrites the order's status regardless of the current
status; only a string outside the enum is rejected by schema validation. -/
theorem updateOrderStatus_no_transition_check (os : Orders) (orderId : String)
    (o : Order) (s : String) (st : OrderStatus) (tn notes : Option String)
    (ho : os orderId = some o) (hs : parseOrderStatus s = some st) :
    (updateOrderStatus os orderId s tn notes).2 = true
    ∧ (updateOrderStatus os orderId s tn notes).1 orderId
        = some { o with
                 status := st
                 trackingNumber := keepIfNone tn o.trackingNumber
                 notes := keepIfNone notes o.notes } := by
  simp [updateOrderStatus, hs, ho, putOrder]

/-- Witness for the amended C3: the delivered demo order is overwritten to
PROCESSING. -/
theorem updateOrderStatus_no_transition_check_witness :
    (updateOrderStatus demoOrders ("o1") ("PROCESSING") none none).1 ("o1")
      = some { demoDeliveredOrder with
               status := OrderStatus.PROCESSING
               trackingNumber := keepIfNone none demoDeliveredOrder.trackingNumber
               notes := keepIfNone none demoDeliveredOrder.notes } :=
  (updateOrderStatus_no_transition_check demoOrders ("o1") demoDeliveredOrder
    ("PROCESSING") OrderStatus.PROCESSING none none (by decide) (by decide)).2

/-! ## Payment reconciliation (`processSuccessfulPayment`, checkout.ts 579-658) -/

/-- Total quantity of product `pid` across an order's items, accumulated in
the same per-item sequence as the code's `for (const item of order.items)`
loop. -/
def itemsQty : List OrderItem → String → Int
  | [], _ => 0
  | item :: rest, pid =>
    (if item.productId = pid then item.quantity else 0) + itemsQty rest pid

/-- The shape of the code's per-item inventory loops: for each order item in
sequence, `prisma.product.update` the item's product, adjusting its
inventory by the item quantity through `g` (`g` is subtraction in
`processSuccessfulPayment`, addition in `cancelOrder`). -/
def applyOrderItems (g : Int → Int → Int) (ps : Products) (items : List OrderItem) :
    Products :=
  items.foldl
    (fun acc item =>
      updateProduct acc item.productId
        (fun p => { p with inventory := g p.inventory item.quantity }))
    ps

/-- The `inventory: decrement` loop of `processSuccessfulPayment`
(checkout.ts 620-630). -/
def decrementOrderItems : Products → List OrderItem → Products :=
  applyOrderItems (fun i q => i - q)

/-- The `inventory: increment` restock loop of `cancelOrder`
(checkout.ts 719-731). -/
def incrementOrderItems : Products → List OrderItem → Products :=
  applyOrderItems (fun i q => i + q)

theorem updateProduct_self (ps : Products) (pid : String) (f : Product → Product) :
    updateProduct ps pid f pid = (ps pid).map f := by
  simp [updateProduct]

theorem updateProduct_ne (ps : Products) (pid q : String) (f : Product → Product)
    (h : q ≠ pid) : updateProduct ps pid f q = ps q := by
  simp [updateProduct, h]

theorem applyOrderItems_apply (g : Int → Int → Int)
    (hg0 : ∀ i, g i 0 = i)
    (hgadd : ∀ i a b, g (g i a) b = g i (a + b))
    (ps : Products) (items : List OrderItem) (pid : String) :
    applyOrderItems g ps items pid
      = (ps pid).map
          (fun p => { p with inventory := g p.inventory (itemsQty items pid) }) := by
  induction items generalizing ps with
  | nil =>
    cases h : ps pid <;> simp [applyOrderItems, itemsQty, h, hg0]
  | cons item rest ih =>
    have step : applyOrderItems g ps (item :: rest) pid
        = applyOrderItems g
            (updateProduct ps item.productId
              (fun p => { p with inventory := g p.inventory item.quantity }))
            rest pid := rfl
    rw [step, ih]
    by_cases hpid : pid = item.productId
    · subst hpid
      rw [updateProduct_self, Option.map_map]
      cases h : ps item.productId with
      | none => rfl
      | some p =>
        cases p with
        | mk inv act pr =>
          simp [itemsQty, Function.comp]
          exact hgadd inv item.quantity (itemsQty rest item.productId)
    · rw [updateProduct_ne ps item.productId pid _ hpid]
      have hne : item.productId ≠ pid := fun hc => hpid hc.symm
      simp [itemsQty, hne]

theorem decrementOrderItems_apply (ps : Products) (items : List OrderItem)
    (pid : String) :
    decrementOrderItems ps items pid
      = (ps pid).map
          (fun p => { p with inventory := p.inventory - itemsQty items pid }) :=
  applyOrderItems_apply (fun i q => i - q) (fun i => by ring)
    (fun i a b => by ring) ps items pid

theorem incrementOrderItems_apply (ps : Products) (items : List OrderItem)
    (pid : String) :
    incrementOrderItems ps items pid
      = (ps pid).map
          (fun p => { p with inventory := p.inventory + itemsQty items pid }) :=
  applyOrderItems_apply (fun i q => i + q) (fun i => by ring)
    (fun i a b => by ring) ps items pid

/-- `processSuccessfulPayment(sessionId)` from server/actions/checkout.ts
lines 579-658, after the Stripe session has been resolved to the order id
stored in its metadata (`now` is the clock read for `paidAt`). Looks the
order up (a missing order throws into the catch branch with no write), sets
status PROCESSING and `paidAt` unconditionally — there is no idempotency
gate, no check of the current status and no payment-event record — and then
decrements each item's product inventory by the item quantity. The cart
clearing, confirmation email and cache revalidation that follow touch no
order or product state. The code writes the order row before the inventory
loop; the model builds the same final state in one step. -/
def processSuccessfulPayment (db : DB) (orderId : String) (now : Nat) : DB × Bool :=
  match db.orders orderId with
  | none => (db, false)
  | some o =>
    ({ products := decrementOrderItems db.products o.items
       orders := putOrder db.orders orderId
         { o with status := OrderStatus.PROCESSING, paidAt := some now } },
     true)

theorem processSuccessfulPayment_found (db : DB) (orderId : String) (o : Order)
    (t : Nat) (ho : db.orders orderId = some o) :
    processSuccessfulPayment db orderId t
      = ({ products := decrementOrderItems db.products o.items
           orders := putOrder db.orders orderId
             { o with status := OrderStatus.PROCESSING, paidAt := some t } },
         true) := by
  simp [processSuccessfulPayment, ho]

/-- A pending order for two units of product A, awaiting payment. -/
def demoPendingOrder : Order :=
  { demoDeliveredOrder with status := OrderStatus.PENDING, paidAt := none }

/-- The database before payment confirmation arrives: catalog
`demoProducts` (A has 5 in stock) and the single pending order o2. -/
def demoDB : DB :=
  { products := demoProducts
    orders := fun oid => if oid = "o2" then some demoPendingOrder else none }

/-- State after one delivery of the payment confirmation for o2. -/
def demoPaidOnce : DB := (processSuccessfulPayment demoDB ("o2") 10).1

/-- State after the same payment confirmation is delivered a second time. -/
def demoPaidTwice : DB := (processSuccessfulPayment demoPaidOnce ("o2") 11).1

/-- Claim C1 counterexample: processing the same payment confirmation twice
is not idempotent — one delivery leaves product A at inventory 3, the
duplicate delivery decrements again to 1, so the per-product inventory
after two runs differs from the inventory after one run. -/
theorem processSuccessfulPayment_not_idempotent :
    (demoPaidOnce.products ("A")).map Product.inventory = some 3
    ∧ (demoPaidTwice.products ("A")).map Product.inventory = some 1
    ∧ (demoPaidTwice.products ("A")).map Product.inventory
        ≠ (demoPaidOnce.products ("A")).map Product.inventory := by
  refine ⟨rfl, rfl, by decide⟩

/-- Claim C1 (amended): `processSuccessfulPayment` applies its full effect
on every delivery. For a stored order, running it twice reports success
both times, leaves the order in status PROCESSING with `paidAt` overwritten
by the second delivery's clock, and decrements every product's inventory by
twice the order's quantity for that product — the duplicate delivery is not
a no-op. -/
theorem processSuccessfulPayment_twice_decrements_twice (db : DB)
    (orderId : String) (o : Order) (t1 t2 : Nat)
    (ho : db.orders orderId = some o) (hpend : o.status = OrderStatus.PENDING) :
    (processSuccessfulPayment db orderId t1).2 = true
    ∧ (processSuccessfulPayment (processSuccessfulPayment db orderId t1).1
        orderId t2).2 = true
    ∧ (processSuccessfulPayment (processSuccessfulPayment db orderId t1).1
        orderId t2).1.orders orderId
        = some { o with status := OrderStatus.PROCESSING, paidAt := some t2 }
    ∧ ∀ pid,
        (processSuccessfulPayment (processSuccessfulPayment db orderId t1).1
          orderId t2).1.products pid
          = (db.products pid).map
              (fun p => { p with
                inventory := p.inventory - 2 * itemsQty o.items pid }) := by
  have h1 := processSuccessfulPayment_found db orderId o t1 ho
  rw [h1]
  have ho1 : (DB.mk (decrementOrderItems db.products o.items)
      (putOrder db.orders orderId
        { o with status := OrderStatus.PROCESSING, paidAt := some t1 })).orders orderId
      = some { o with status := OrderStatus.PROCESSING, paidAt := some t1 } := by
    simp [putOrder]
  have h2 := processSuccessfulPayment_found _ orderId
    { o with status := OrderStatus.PROCESSING, paidAt := some t1 } t2 ho1
  rw [h2]
  refine ⟨rfl, rfl, ?_, ?_⟩
  · simp [putOrder]
  · intro pid
    simp only
    rw [decrementOrderItems_apply, decrementOrderItems_apply]
    cases hp : db.products pid with
    | none => rfl
    | some p =>
      cases p with
      | mk inv act pr =>
        simp only [Option.map_some', Option.some.injEq, Product.mk.injEq,
          and_true, true_and]
        ring

/-- Witness for the amended C1: after two deliveries of the payment
confirmation for the pending demo order, product A's row carries inventory
5 - 2*2 = 1 and the order is PROCESSING with the second delivery's
timestamp. -/
theorem processSuccessfulPayment_twice_decrements_twice_witness :
    demoPaidTwice.orders ("o2")
      = some { demoPendingOrder with
               status := OrderStatus.PROCESSING, paidAt := some 11 }
    ∧ demoPaidTwice.products ("A")
      = (demoDB.products ("A")).map
          (fun p => { p with
            inventory := p.inventory - 2 * itemsQty demoPendingOrder.items ("A") }) :=
  ⟨(processSuccessfulPayment_twice_decrements_twice demoDB ("o2") demoPendingOrder
      10 11 (by decide) (by decide)).2.2.1,
   (processSuccessfulPayment_twice_decrements_twice demoDB ("o2") demoPendingOrder
      10 11 (by decide) (by decide)).2.2.2 ("A")⟩

/-! ## Order cancellation (`cancelOrder`, checkout.ts 695-750) -/

/-- The distinct failure messages of `cancelOrder`. -/
inductive CancelError
  | AuthRequired
  | NotFound
  | Unauthorized
  | CannotCancel
deriving DecidableEq, Repr

/-- `cancelOrder(orderId)` from server/actions/checkout.ts lines 695-750.
Requires an authenticated caller, an existing order owned by that caller,
and a status in PENDING or PROCESSING. Only when the status is PROCESSING
is the inventory restock loop run (each item's product incremented by the
item quantity); the order is then set to CANCELLED with `cancelledAt`. The
cache revalidation is omitted. -/
def cancelOrder (db : DB) (user : Option String) (orderId : String) (now : Nat) :
    DB × Option CancelError :=
  match user with
  | none => (db, some CancelError.AuthRequired)
  | some uid =>
    match db.orders orderId with
    | none => (db, some CancelError.NotFound)
    | some o =>
      if o.userId ≠ some uid then (db, some CancelError.Unauthorized)
      else if ¬ (o.status = OrderStatus.PENDING ∨ o.status = OrderStatus.PROCESSING)
      then (db, some CancelError.CannotCancel)
      else
        ({ products :=
             if o.status = OrderStatus.PROCESSING
             then incrementOrderItems db.products o.items
             else db.products
           orders := putOrder db.orders orderId
             { o with status := OrderStatus.CANCELLED, cancelledAt := some now } },
         none)

/-- Claim C6: for an order owned by the calling user, `cancelOrder` on a
PROCESSING order increments each ordered product's inventory by that
order's quantity for the product (the restock loop runs exactly once) and
moves the order to CANCELLED with `cancelledAt` set; on a PENDING order it
moves the order to CANCELLED without touching any product's inventory. -/
theorem cancelOrder_restock (db : DB) (uid orderId : String) (o : Order)
    (now : Nat) (ho : db.orders orderId = some o) (hown : o.userId = some uid) :
    (o.status = OrderStatus.PROCESSING →
      (cancelOrder db (some uid) orderId now).2 = none
      ∧ (∀ pid, (cancelOrder db (some uid) orderId now).1.products pid
          = (db.products pid).map
              (fun p => { p with inventory := p.inventory + itemsQty o.items pid }))
      ∧ (cancelOrder db (some uid) orderId now).1.orders orderId
          = some { o with status := OrderStatus.CANCELLED, cancelledAt := some now })
    ∧ (o.status = OrderStatus.PENDING →
      (cancelOrder db (some uid) orderId now).2 = none
      ∧ (∀ pid, (cancelOrder db (some uid) orderId now).1.products pid
          = db.products pid)
      ∧ (cancelOrder db (some uid) orderId now).1.orders orderId
          = some { o with status := OrderStatus.CANCELLED, cancelledAt := some now }) := by
  constructor
  · intro hst
    refine ⟨?_, ?_, ?_⟩ <;>
      simp [cancelOrder, ho, hown, hst, putOrder, incrementOrderItems_apply]
  · intro hst
    refine ⟨?_, ?_, ?_⟩ <;>
      simp [cancelOrder, ho, hown, hst, putOrder]

/-- An order for three units of product A that has been paid (PROCESSING),
owned by user u1. -/
def demoProcessingOrder : Order :=
  { demoDeliveredOrder with
    status := OrderStatus.PROCESSING
    items := [⟨"A", 3, 10⟩] }

/-- Database for the cancellation scenario: catalog `demoProducts` and the
single PROCESSING order o3. -/
def demoCancelDB : DB :=
  { products := demoProducts
    orders := fun oid => if oid = "o3" then some demoProcessingOrder else none }

/-- Witness for C6: cancelling the PROCESSING demo order (3 units of A)
succeeds and restocks product A from 5 to 5 + 3. -/
theorem cancelOrder_restock_witness :
    (cancelOrder demoCancelDB (some ("u1")) ("o3") 12).2 = none
    ∧ (cancelOrder demoCancelDB (some ("u1")) ("o3") 12).1.products ("A")
        = (demoCancelDB.products ("A")).map
            (fun p => { p with
              inventory := p.inventory + itemsQty demoProcessingOrder.items ("A") }) := by
  have h := (cancelOrder_restock demoCancelDB ("u1") ("o3") demoProcessingOrder 12
    (by decide) (by decide)).1 (by decide)
  exact ⟨h.1, h.2.1 ("A")⟩

/-! ## Concurrent checkout against shared inventory (C2)

The code never reserves stock: `createCheckout` (checkout.ts 447-461) only
reads `product.inventory` and compares it with the requested quantity,
while the decrement happens later in `processSuccessfulPayment` (checkout.ts
620-630) when the payment webhook arrives. The transition system below is
the smallest faithful abstraction of two such checkout flows for quantities
`q1`/`q2` of one product: a `check` step is the availability read (passes
exactly when the current inventory covers the request, writes nothing), and
a `pay` step is that flow's later webhook decrement (runs once, only for a
flow whose check passed and created an order). -/

/-- Per-flow progress: has the availability check passed, and has the
payment webhook decremented. -/
structure CheckoutFlow where
  passedCheck : Bool
  paid : Bool
deriving DecidableEq, Repr

/-- Shared inventory plus the progress of the two competing flows. -/
structure ShopState where
  inventory : Int
  flow1 : CheckoutFlow
  flow2 : CheckoutFlow
deriving DecidableEq, Repr

/-- One scheduling action: run flow i's availability check or its webhook
decrement. -/
inductive CheckoutStep
  | check1
  | check2
  | pay1
  | pay2
deriving DecidableEq, Repr

/-- Small-step semantics of the two flows. A check that fails (or repeats)
changes nothing — in the code the request just errors. A pay step fires
once per flow, after its check passed, and decrements unconditionally. -/
def stepCheckout (q1 q2 : Int) (st : ShopState) : CheckoutStep → ShopState
  | CheckoutStep.check1 =>
    if st.flow1.passedCheck = false ∧ q1 ≤ st.inventory
    then { st with flow1 := { st.flow1 with passedCheck := true } }
    else st
  | CheckoutStep.check2 =>
    if st.flow2.passedCheck = false ∧ q2 ≤ st.inventory
    then { st with flow2 := { st.flow2 with passedCheck := true } }
    else st
  | CheckoutStep.pay1 =>
    if st.flow1.passedCheck = true ∧ st.flow1.paid = false
    then { st with
           inventory := st.inventory - q1
           flow1 := { st.flow1 with paid := true } }
    else st
  | CheckoutStep.pay2 =>
    if st.flow2.passedCheck = true ∧ st.flow2.paid = false
    then { st with
           inventory := st.inventory - q2
           flow2 := { st.flow2 with paid := true } }
    else st

/-- Run a schedule from stock `init` with neither flow started. -/
def runCheckouts (q1 q2 : Int) (init : Int) (steps : List CheckoutStep) : ShopState :=
  steps.foldl (stepCheckout q1 q2)
    { inventory := init
      flow1 := { passedCheck := false, paid := false }
      flow2 := { passedCheck := false, paid := false } }

/-- Total quantity committed (sold): each flow whose webhook has run has
taken its full quantity. -/
def soldTotal (q1 q2 : Int) (st : ShopState) : Int :=
  (if st.flow1.paid then q1 else 0) + (if st.flow2.paid then q2 else 0)

/-- Claim C2 counterexample: with 5 in stock, two concurrent checkouts of 3
units each can both pass the availability check before either webhook
decrement runs; the interleaving check1, check2, pay1, pay2 commits 6 units
against a stock of 5 (and leaves inventory at -1). -/
theorem concurrent_checkouts_oversell :
    soldTotal 3 3 (runCheckouts 3 3 5
        [CheckoutStep.check1, CheckoutStep.check2,
         CheckoutStep.pay1, CheckoutStep.pay2]) = 6
    ∧ ¬ soldTotal 3 3 (runCheckouts 3 3 5
        [CheckoutStep.check1, CheckoutStep.check2,
         CheckoutStep.pay1, CheckoutStep.pay2]) ≤ 5
    ∧ (runCheckouts 3 3 5
        [CheckoutStep.check1, CheckoutStep.check2,
         CheckoutStep.pay1, CheckoutStep.pay2]).inventory = -1 := by
  refine ⟨rfl, by decide, rfl⟩

theorem foldl_checkout_inventory (q1 q2 init : Int) (steps : List CheckoutStep)
    (st : ShopState) (h : st.inventory = init - soldTotal q1 q2 st) :
    (steps.foldl (stepCheckout q1 q2) st).inventory
      = init - soldTotal q1 q2 (steps.foldl (stepCheckout q1 q2) st) := by
  induction steps generalizing st with
  | nil => exact h
  | cons a rest ih =>
    apply ih
    cases a <;> simp only [stepCheckout, soldTotal] at h ⊢ <;>
      split_ifs <;> simp_all <;> omega

/-- Claim C2 (amended): the availability check and the webhook decrement
are two separate steps on shared inventory, so the no-oversell bound holds
only for non-interleaved executions: when the two checkout flows run
serially (each flow's check and payment complete before the other starts),
the total committed quantity never exceeds the initial stock; and in every
interleaving the inventory variable equals initial stock minus total
committed, so an interleaving that jointly oversells (both checks before
either decrement) drives the stored inventory negative instead of being
prevented. -/
theorem serial_checkouts_no_oversell (q1 q2 init : Int)
    (h0 : 0 ≤ init) (hq1 : 0 ≤ q1) (hq2 : 0 ≤ q2) :
    soldTotal q1 q2 (runCheckouts q1 q2 init
        [CheckoutStep.check1, CheckoutStep.pay1,
         CheckoutStep.check2, CheckoutStep.pay2]) ≤ init
    ∧ ∀ steps, (runCheckouts q1 q2 init steps).inventory
        = init - soldTotal q1 q2 (runCheckouts q1 q2 init steps) := by
  constructor
  · simp only [runCheckouts, List.foldl_cons, List.foldl_nil, stepCheckout, soldTotal]
    split_ifs <;> simp_all <;> omega
  · intro steps
    exact foldl_checkout_inventory q1 q2 init steps _ (by simp [soldTotal])

/-- Witness for the amended C2: with stock 5 and quantities 3 and 3, the
serial schedule commits only 3 units (the second check fails), within the
stock bound; and on the overselling interleaving the inventory invariant
still ties inventory to units sold. -/
theorem serial_checkouts_no_oversell_witness :
    soldTotal 3 3 (runCheckouts 3 3 5
        [CheckoutStep.check1, CheckoutStep.pay1,
         CheckoutStep.check2, CheckoutStep.pay2]) ≤ 5
    ∧ (runCheckouts 3 3 5
        [CheckoutStep.check2, CheckoutStep.check1,
         CheckoutStep.pay2, CheckoutStep.pay1]).inventory
      = 5 - soldTotal 3 3 (runCheckouts 3 3 5
          [CheckoutStep.check2, CheckoutStep.check1,
           CheckoutStep.pay2, CheckoutStep.pay1]) :=
  ⟨(serial_checkouts_no_oversell 3 3 5 (by decide) (by decide) (by decide)).1,
   (serial_checkouts_no_oversell 3 3 5 (by decide) (by decide) (by decide)).2
     [CheckoutStep.check2, CheckoutStep.check1,
      CheckoutStep.pay2, CheckoutStep.pay1]⟩

/-! ## Carts (server/actions/cart.ts) -/

/-- A row of the `CartItem` table: product reference, nullable variant,
quantity. (The cart it belongs to is the list holding the row.) -/
structure CartLine where
  productId : String
  variantId : Option String
  quantity : Int
deriving DecidableEq, Repr

/-- A cart's items, in row order (Prisma `findFirst` scans in this order). -/
abbrev Cart := List CartLine

/-- The `cartItem.findFirst` filter used by `mergeGuestCart` (cart.ts
673-679): the guest item's `variantId` comes from the database row, so the
filter is an exact match on (productId, variantId), with a null variant
matching only null. -/
def mergeMatch (pid : String) (vid : Option String) (l : CartLine) : Bool :=
  decide (l.productId = pid ∧ l.variantId = vid)

/-- Prisma `cartItem.update (where id = first match)`: rewrite the first
line satisfying the filter, keep everything else. -/
def updateFirstLine (p : CartLine → Bool) (f : CartLine → CartLine) : Cart → Cart
  | [] => []
  | l :: rest => if p l then f l :: rest else l :: updateFirstLine p f rest

/-- One iteration of the `for (const item of guestCart.items)` merge loop
(cart.ts 672-696): if the user cart has a line matching the guest item's
(productId, variantId), add the guest quantity onto that line, else create
the guest line in the user cart. No inventory is read anywhere in the
loop. -/
def mergeLine (userCart : Cart) (item : CartLine) : Cart :=
  match userCart.find? (mergeMatch item.productId item.variantId) with
  | some _ =>
    updateFirstLine (mergeMatch item.productId item.variantId)
      (fun l => { l with quantity := l.quantity + item.quantity }) userCart
  | none => userCart ++ [item]

/-- `mergeGuestCart(guestSessionId)` from cart.ts 651-709, applied to the
two carts' lines: fold the merge loop over the guest items (the guest cart
row is deleted afterwards; an empty guest cart returns the user cart
unchanged, which the fold also does). -/
def mergeGuestCart (guestCart userCart : Cart) : Cart :=
  guestCart.foldl mergeLine userCart

/-- Total quantity a cart holds for one (productId, variantId) key. -/
def cartQty : Cart → String → Option String → Int
  | [], _, _ => 0
  | l :: rest, pid, vid =>
    (if mergeMatch pid vid l then l.quantity else 0) + cartQty rest pid vid

theorem cartQty_append (c : Cart) (item : CartLine) (pid : String)
    (vid : Option String) :
    cartQty (c ++ [item]) pid vid
      = cartQty c pid vid + (if mergeMatch pid vid item then item.quantity else 0) := by
  induction c with
  | nil => simp [cartQty]
  | cons l rest ih =>
    simp only [List.cons_append, cartQty, List.append_eq, ih]
    ring

theorem cartQty_updateFirst_add (c : Cart) (pid' : String) (vid' : Option String)
    (q : Int) (pid : String) (vid : Option String)
    (h : (c.find? (mergeMatch pid' vid')).isSome = true) :
    cartQty (updateFirstLine (mergeMatch pid' vid')
        (fun l => { l with quantity := l.quantity + q }) c) pid vid
      = cartQty c pid vid + (if pid' = pid ∧ vid' = vid then q else 0) := by
  induction c with
  | nil => simp [List.find?] at h
  | cons l rest ih =>
    by_cases hl : mergeMatch pid' vid' l = true
    · have hkey : l.productId = pid' ∧ l.variantId = vid' := by
        simpa [mergeMatch] using hl
      simp only [updateFirstLine, hl, if_true, cartQty]
      have hmm : mergeMatch pid vid { l with quantity := l.quantity + q }
          = mergeMatch pid vid l := by
        simp [mergeMatch]
      rw [hmm]
      by_cases hm : mergeMatch pid vid l = true
      · have hq : l.productId = pid ∧ l.variantId = vid := by
          simpa [mergeMatch] using hm
        have heq : pid' = pid ∧ vid' = vid :=
          ⟨hkey.1 ▸ hq.1, hkey.2 ▸ hq.2⟩
        simp only [hm, if_true, heq, and_self]
        ring
      · have hne : ¬ (pid' = pid ∧ vid' = vid) := by
          intro hc
          exact hm (by simp [mergeMatch, hkey.1, hkey.2, hc.1, hc.2])
        simp only [hm, if_false, hne]
        simp
    · have hfind : (rest.find? (mergeMatch pid' vid')).isSome = true := by
        simpa [List.find?_cons, hl] using h
      simp only [updateFirstLine, hl, if_false, cartQty, ih hfind]
      ring

theorem cartQty_mergeLine (user : Cart) (item : CartLine) (pid : String)
    (vid : Option String) :
    cartQty (mergeLine user item) pid vid
      = cartQty user pid vid
        + (if mergeMatch pid vid item then item.quantity else 0) := by
  unfold mergeLine
  cases hf : user.find? (mergeMatch item.productId item.variantId) with
  | some l =>
    rw [cartQty_updateFirst_add user item.productId item.variantId item.quantity
      pid vid (by simp [hf])]
    congr 1
    simp [mergeMatch]
  | none => exact cartQty_append user item pid vid

/-- Guest cart holding two units of product A (no variant). -/
def demoGuestCart : Cart := [⟨"A", none, 2⟩]

/-- User cart holding one unit of product A (no variant). -/
def demoUserCart : Cart := [⟨"A", none, 1⟩]

/-- Claim C4 counterexample: merging guest cart A:2 into user cart A:1
yields a merged quantity of 3 for A, never the clamped value 2 — the merge
loop reads no inventory at all, so the claim's example (available(A) = 2
yields 2) fails. -/
theorem mergeGuestCart_does_not_clamp :
    cartQty (mergeGuestCart demoGuestCart demoUserCart) ("A") none = 3
    ∧ cartQty (mergeGuestCart demoGuestCart demoUserCart) ("A") none ≠ 2 := by
  refine ⟨rfl, by decide⟩

/-- Claim C4 (amended): `mergeGuestCart` sums the quantities per
(product, variant) line across the two carts and deletes the guest cart,
but performs no clamping: for every guest cart, user cart and line key, the
merged quantity is exactly the user quantity plus the guest quantity,
independent of any product's available stock. -/
theorem mergeGuestCart_sums_per_line (guest user : Cart) (pid : String)
    (vid : Option String) :
    cartQty (mergeGuestCart guest user) pid vid
      = cartQty user pid vid + cartQty guest pid vid := by
  unfold mergeGuestCart
  induction guest generalizing user with
  | nil => simp [cartQty]
  | cons item rest ih =>
    simp only [List.foldl_cons, cartQty]
    rw [ih (mergeLine user item), cartQty_mergeLine]
    ring

/-! ## Checkout (`createCheckout`, checkout.ts 427-577) -/

/-- The error outcomes of `createCheckout`'s validation phase. -/
inductive CheckoutError
  | EmptyCart
  | ProductUnavailable
  | InsufficientInventory
deriving DecidableEq, Repr

/-- The shipping address as the checkout path consumes it: `calculateTax`
reads only `address.state`; `calculateShippingCost` receives the address
but never reads it. -/
structure Address where
  state : String
deriving DecidableEq, Repr

/-- The per-item availability loop of `createCheckout` (checkout.ts
447-461), in submitted order: a missing or inactive product fails with the
products-unavailable message, a product whose `inventory < quantity` fails
with the insufficient-inventory message; otherwise continue. The loop only
reads — no write happens on any path. Checkout items have the same
(productId, quantity, price) shape as order items, so `OrderItem` is
reused for them. -/
def checkItems (ps : Products) : List OrderItem → Option CheckoutError
  | [] => none
  | item :: rest =>
    match ps item.productId with
    | none => some CheckoutError.ProductUnavailable
    | some p =>
      if p.isActive = false then some CheckoutError.ProductUnavailable
      else if p.inventory < item.quantity then
        some CheckoutError.InsufficientInventory
      else checkItems ps rest

/-- The `shippingRates` object of `calculateShippingCost` (checkout.ts
666-671). -/
def shippingRateLookup (method : String) : Option ℚ :=
  if method = "standard" then some ((599 : ℚ) / 100)
  else if method = "express" then some ((1299 : ℚ) / 100)
  else if method = "overnight" then some ((2499 : ℚ) / 100)
  else if method = "free" then some 0
  else none

/-- `calculateShippingCost(method, address, orderValue)` (checkout.ts
660-679): free when the order value reaches the 75 threshold, otherwise the
rate-table entry. The code returns `shippingRates[method] || 5.99`, and in
JavaScript a 0 rate (the free entry) is falsy, so it falls back to 5.99
exactly like a missing key. -/
def calculateShippingCost (method : String) (address : Address)
    (orderValue : ℚ) : ℚ :=
  if 75 ≤ orderValue then 0
  else
    match shippingRateLookup method with
    | some r => if r = 0 then (599 : ℚ) / 100 else r
    | none => (599 : ℚ) / 100

/-- The `taxRates` table of `calculateTax` (checkout.ts 683-689). -/
def taxRateLookup (state : String) : Option ℚ :=
  if state = "CA" then some ((8 : ℚ) / 100)
  else if state = "NY" then some ((8 : ℚ) / 100)
  else if state = "TX" then some ((65 : ℚ) / 1000)
  else if state = "FL" then some ((6 : ℚ) / 100)
  else none

/-- `calculateTax(subtotal, state)` (checkout.ts 681-693):
`subtotal * (taxRates[state] || 0)`. -/
def calculateTax (subtotal : ℚ) (state : String) : ℚ :=
  subtotal * ((taxRateLookup state).getD 0)

/-- `cart.total` as computed by `getCart` (cart.ts 626-628): the sum over
cart lines of unit price times quantity. -/
def cartTotal (items : List OrderItem) : ℚ :=
  items.foldl (fun sum item => sum + item.price * (item.quantity : ℚ)) 0

/-- `createCheckout(formData)` from checkout.ts 427-577, given the already
validated payload: the session cart's lines (`cartItems`, used for the
empty-cart gate and the subtotal) and the submitted `items` (checked
against inventory and stored as order lines). An empty cart or a failed
availability check returns the error with the database untouched;
otherwise the PENDING order is created with subtotal = cart total,
shipping from the method/threshold rule applied to the cart total, tax
from the state-rate table, and total = subtotal + shippingCost + tax. The
Stripe session creation, the later `stripeSessionId` update and the cache
revalidation never touch product inventory and are omitted. -/
def createCheckout (db : DB) (newOrderId : String) (user : Option String)
    (cartItems items : List OrderItem) (shippingAddress : Address)
    (shippingMethod : String) : DB × Except CheckoutError Order :=
  if cartItems.isEmpty then (db, Except.error CheckoutError.EmptyCart)
  else
    match checkItems db.products items with
    | some e => (db, Except.error e)
    | none =>
      let subtotal := cartTotal cartItems
      let shippingCost := calculateShippingCost shippingMethod shippingAddress subtotal
      let tax := calculateTax subtotal shippingAddress.state
      let total := subtotal + shippingCost + tax
      let order : Order :=
        { userId := user
          status := OrderStatus.PENDING
          items := items
          subtotal := subtotal
          shippingCost := shippingCost
          tax := tax
          total := total
          trackingNumber := none
          notes := none
          paidAt := none
          cancelledAt := none }
      ({ db with orders := putOrder db.orders newOrderId order }, Except.ok order)

/-- The product referenced by `pid` exists and is active (the condition the
first branch of the availability loop tests). -/
def productSellable (ps : Products) (pid : String) : Bool :=
  match ps pid with
  | none => false
  | some p => p.isActive

/-- The item requests more than the referenced product's inventory. -/
def itemShort (ps : Products) (item : OrderItem) : Bool :=
  match ps item.productId with
  | none => false
  | some p => decide (p.inventory < item.quantity)

theorem checkItems_insufficient (ps : Products) (items : List OrderItem)
    (hsell : ∀ item ∈ items, productSellable ps item.productId = true)
    (hshort : ∃ item ∈ items, itemShort ps item = true) :
    checkItems ps items = some CheckoutError.InsufficientInventory := by
  induction items with
  | nil => simp at hshort
  | cons item rest ih =>
    have hs := hsell item (List.mem_cons_self item rest)
    cases hp : ps item.productId with
    | none => simp [productSellable, hp] at hs
    | some p =>
      have hact : p.isActive = true := by simpa [productSellable, hp] using hs
      by_cases hq : p.inventory < item.quantity
      · simp [checkItems, hp, hact, hq]
      · simp only [checkItems, hp, hact, Bool.true_eq_false, if_false, hq, if_neg]
        apply ih
        · intro i hi
          exact hsell i (List.mem_cons_of_mem item hi)
        · rcases hshort with ⟨j, hj, hjs⟩
          rcases List.mem_cons.mp hj with rfl | hj2
          · exact absurd (by simpa [itemShort, hp] using hjs) hq
          · exact ⟨j, hj2, hjs⟩

/-- Claim C5: checkout is all-or-nothing with respect to inventory — for a
nonempty cart whose products are all sellable, if some line requests more
than that product's inventory then `createCheckout` returns the
insufficient-inventory error and the database, in particular every
product's inventory (including products whose lines were validated before
the failing one), is exactly what it was before the attempt. -/
theorem createCheckout_allOrNothing (db : DB) (newOrderId : String)
    (user : Option String) (cartItems items : List OrderItem)
    (addr : Address) (method : String)
    (hne : cartItems ≠ [])
    (hsell : ∀ item ∈ items, productSellable db.products item.productId = true)
    (hshort : ∃ item ∈ items, itemShort db.products item = true) :
    createCheckout db newOrderId user cartItems items addr method
      = (db, Except.error CheckoutError.InsufficientInventory)
    ∧ ∀ pid, (createCheckout db newOrderId user cartItems items addr method).1.products pid
        = db.products pid := by
  have hc := checkItems_insufficient db.products items hsell hshort
  have hie : cartItems.isEmpty = false := by
    cases cartItems with
    | nil => exact absurd rfl hne
    | cons a l => rfl
  constructor
  · simp [createCheckout, hie, hc]
  · intro pid
    simp [createCheckout, hie, hc]

/-- The saga-rollback scenario's item list: 2 units of A (in stock) then
100 units of B (only 1 in stock). -/
def demoCheckoutItems : List OrderItem := [⟨"A", 2, 10⟩, ⟨"B", 100, 20⟩]

/-- Witness for C5: the scenario cart A:2, B:100 against demoProducts
(B has 1 in stock) fails with the insufficient-inventory error and leaves
the database untouched. -/
theorem createCheckout_allOrNothing_witness :
    createCheckout demoDB ("o9") none [⟨"A", 2, 10⟩] demoCheckoutItems
        ⟨"CA"⟩ ("standard")
      = (demoDB, Except.error CheckoutError.InsufficientInventory) :=
  (createCheckout_allOrNothing demoDB ("o9") none [⟨"A", 2, 10⟩] demoCheckoutItems
    ⟨"CA"⟩ ("standard") (by decide) (by decide) (by decide)).1

/-- The PENDING order `createCheckout` creates on its success path (the
body of the `prisma.order.create` call, checkout.ts 475-511, with the
let-bound totals substituted). -/
def checkoutOrder (user : Option String) (cartItems items : List OrderItem)
    (addr : Address) (method : String) : Order :=
  { userId := user
    status := OrderStatus.PENDING
    items := items
    subtotal := cartTotal cartItems
    shippingCost := calculateShippingCost method addr (cartTotal cartItems)
    tax := calculateTax (cartTotal cartItems) addr.state
    total := cartTotal cartItems
      + calculateShippingCost method addr (cartTotal cartItems)
      + calculateTax (cartTotal cartItems) addr.state
    trackingNumber := none
    notes := none
    paidAt := none
    cancelledAt := none }

/-- Claim C7: every order created by `createCheckout` stores
total = subtotal + tax + shipping, with subtotal the sum over cart lines of
unit price times quantity, tax computed from that subtotal and the shipping
address's state, and shipping computed from the chosen method and the
free-shipping threshold. -/
theorem createCheckout_total_decomposition (db : DB) (newOrderId : String)
    (user : Option String) (cartItems items : List OrderItem)
    (addr : Address) (method : String) (db' : DB) (o : Order)
    (h : createCheckout db newOrderId user cartItems items addr method
        = (db', Except.ok o)) :
    o.total = o.subtotal + o.tax + o.shippingCost
    ∧ o.subtotal = cartTotal cartItems
    ∧ o.tax = calculateTax (cartTotal cartItems) addr.state
    ∧ o.shippingCost = calculateShippingCost method addr (cartTotal cartItems) := by
  unfold createCheckout at h
  split at h
  · simp at h
  · split at h
    · simp at h
    · simp only [Prod.mk.injEq, Except.ok.injEq] at h
      have ho : o = checkoutOrder user cartItems items addr method := h.2.symm
      subst ho
      refine ⟨?_, rfl, rfl, rfl⟩
      show cartTotal cartItems
          + calculateShippingCost method addr (cartTotal cartItems)
          + calculateTax (cartTotal cartItems) addr.state
        = cartTotal cartItems
          + calculateTax (cartTotal cartItems) addr.state
          + calculateShippingCost method addr (cartTotal cartItems)
      ring

/-- A successful checkout of the demo cart (2 units of A at price 10,
shipped standard to CA). -/
def demoCheckoutRun : DB × Except CheckoutError Order :=
  createCheckout demoDB ("o9") none [⟨"A", 2, 10⟩] [⟨"A", 2, 10⟩]
    ⟨"CA"⟩ ("standard")

/-- The order that successful checkout created. -/
def demoCheckoutOrder : Order :=
  (demoCheckoutRun.2.toOption).getD demoDeliveredOrder

/-- Witness for C7: the demo order stores total = subtotal + tax +
shipping. -/
theorem createCheckout_total_decomposition_witness :
    demoCheckoutOrder.total
      = demoCheckoutOrder.subtotal + demoCheckoutOrder.tax
        + demoCheckoutOrder.shippingCost :=
  (createCheckout_total_decomposition demoDB ("o9") none [⟨"A", 2, 10⟩]
    [⟨"A", 2, 10⟩] ⟨"CA"⟩ ("standard") demoCheckoutRun.1 demoCheckoutOrder rfl).1

/-! ## Cart mutations (`addToCart` cart.ts 447-512, `updateCartItem` cart.ts 514-558) -/

/-- The error outcomes of the cart mutation actions. -/
inductive CartError
  | ValidationError
  | ProductUnavailable
  | InsufficientInventory
  | ItemNotFound
deriving DecidableEq, Repr

/-- The `cartItem.findFirst` filter of `addToCart` (cart.ts 476-482). The
request's `variantId` is `string | undefined` after validation; Prisma
drops an `undefined` condition entirely, so a request without a variant
matches a line with ANY variant — unlike the merge loop, whose filter value
comes from a database row and is `null` rather than `undefined`. -/
def addMatch (pid : String) (vid : Option String) (l : CartLine) : Bool :=
  match vid with
  | none => decide (l.productId = pid)
  | some v => decide (l.productId = pid ∧ l.variantId = some v)

/-- `addToCart(formData)` from cart.ts 447-512. `addToCartSchema`
(validators.ts 127-131) requires an integer quantity between 1 and 100.
Then: product must exist and be active; the requested quantity must not
exceed inventory; if a line matches, its quantity becomes existing + qty
unless that exceeds inventory, else a new line is created. Every error
path returns before any write. -/
def addToCart (ps : Products) (cart : Cart) (pid : String) (qty : Int)
    (vid : Option String) : Except CartError Cart :=
  if ¬ (1 ≤ qty ∧ qty ≤ 100) then Except.error CartError.ValidationError
  else
    match ps pid with
    | none => Except.error CartError.ProductUnavailable
    | some p =>
      if p.isActive = false then Except.error CartError.ProductUnavailable
      else if p.inventory < qty then Except.error CartError.InsufficientInventory
      else
        match cart.find? (addMatch pid vid) with
        | some existing =>
          if p.inventory < existing.quantity + qty then
            Except.error CartError.InsufficientInventory
          else
            Except.ok (updateFirstLine (addMatch pid vid)
              (fun l => { l with quantity := existing.quantity + qty }) cart)
        | none => Except.ok (cart ++ [⟨pid, vid, qty⟩])

/-- `updateCartItem(itemId, formData)` from cart.ts 514-558, with the
target row identified by its position `idx` in the cart (row ids are
unique). `updateCartItemSchema` (validators.ts 133-135) requires an
integer quantity between 0 and 100. Quantity 0 deletes the line; a nonzero
quantity must not exceed the line's product inventory (the product row is
reached through the item's relation, so it exists whenever the item does)
and is then stored. -/
def updateCartItem (ps : Products) (cart : Cart) (idx : Nat) (qty : Int) :
    Except CartError Cart :=
  if ¬ (0 ≤ qty ∧ qty ≤ 100) then Except.error CartError.ValidationError
  else
    match cart.get? idx with
    | none => Except.error CartError.ItemNotFound
    | some item =>
      if qty = 0 then Except.ok (cart.eraseIdx idx)
      else
        match ps item.productId with
        | none => Except.error CartError.ItemNotFound
        | some p =>
          if p.inventory < qty then Except.error CartError.InsufficientInventory
          else Except.ok (cart.set idx { item with quantity := qty })

/-- Two cart lines address the same (productId, variantId) key. -/
def sameKey (a b : CartLine) : Prop :=
  a.productId = b.productId ∧ a.variantId = b.variantId

instance (a b : CartLine) : Decidable (sameKey a b) := by
  unfold sameKey
  infer_instance

/-- The cart-shape invariants of the data model: every stored line has
quantity at least 1, and no two lines share a (productId, variantId)
key. -/
def WellFormedCart (c : Cart) : Prop :=
  (∀ l ∈ c, 1 ≤ l.quantity) ∧ List.Pairwise (fun a b => ¬ sameKey a b) c

theorem mem_updateFirstLine (p : CartLine → Bool) (f : CartLine → CartLine)
    (c : Cart) (x : CartLine) (hx : x ∈ updateFirstLine p f c) :
    x ∈ c ∨ ∃ l, l ∈ c ∧ p l = true ∧ x = f l := by
  induction c with
  | nil => simp [updateFirstLine] at hx
  | cons l rest ih =>
    by_cases hl : p l = true
    · simp only [updateFirstLine, hl, if_true] at hx
      rcases List.mem_cons.mp hx with rfl | hx2
      · exact Or.inr ⟨l, List.mem_cons_self l rest, hl, rfl⟩
      · exact Or.inl (List.mem_cons_of_mem l hx2)
    · simp only [updateFirstLine, hl, if_false] at hx
      rcases List.mem_cons.mp hx with rfl | hx2
      · exact Or.inl (List.mem_cons_self x rest)
      · rcases ih hx2 with h | ⟨l0, hl0, hp0, rfl⟩
        · exact Or.inl (List.mem_cons_of_mem l h)
        · exact Or.inr ⟨l0, List.mem_cons_of_mem l hl0, hp0, rfl⟩

theorem length_updateFirstLine (p : CartLine → Bool) (f : CartLine → CartLine)
    (c : Cart) : (updateFirstLine p f c).length = c.length := by
  induction c with
  | nil => rfl
  | cons l rest ih =>
    by_cases hl : p l = true <;> simp [updateFirstLine, hl, ih]

theorem pairwise_updateFirstLine (p : CartLine → Bool) (f : CartLine → CartLine)
    (c : Cart)
    (hf : ∀ l, (f l).productId = l.productId ∧ (f l).variantId = l.variantId)
    (hw : List.Pairwise (fun a b => ¬ sameKey a b) c) :
    List.Pairwise (fun a b => ¬ sameKey a b) (updateFirstLine p f c) := by
  induction c with
  | nil => simp [updateFirstLine]
  | cons l rest ih =>
    rcases List.pairwise_cons.mp hw with ⟨hhead, htail⟩
    by_cases hl : p l = true
    · simp only [updateFirstLine, hl, if_true]
      refine List.pairwise_cons.mpr ⟨?_, htail⟩
      intro b hb hc
      exact hhead b hb ⟨((hf l).1).symm.trans hc.1, ((hf l).2).symm.trans hc.2⟩
    · simp only [updateFirstLine, hl, if_false]
      refine List.pairwise_cons.mpr ⟨?_, ih htail⟩
      intro b hb
      rcases mem_updateFirstLine p f rest b hb with h | ⟨l0, hl0, hp0, rfl⟩
      · exact hhead b h
      · intro hc
        exact hhead l0 hl0 ⟨hc.1.trans ((hf l0).1), hc.2.trans ((hf l0).2)⟩

theorem sameKey_addMatch (pid : String) (vid : Option String) (q : Int)
    (l : CartLine) (h : sameKey l ⟨pid, vid, q⟩) : addMatch pid vid l = true := by
  rcases h with ⟨h1, h2⟩
  cases vid <;> simp_all [addMatch]

theorem pairwise_set_key (c : Cart) (idx : Nat) (item newItem : CartLine)
    (hg : c.get? idx = some item)
    (hkey : newItem.productId = item.productId
      ∧ newItem.variantId = item.variantId)
    (hw : List.Pairwise (fun a b => ¬ sameKey a b) c) :
    List.Pairwise (fun a b => ¬ sameKey a b) (c.set idx newItem) := by
  induction c generalizing idx with
  | nil => simp [List.set]
  | cons l rest ih =>
    cases idx with
    | zero =>
      have hli : l = item := by simpa using hg
      subst hli
      rcases List.pairwise_cons.mp hw with ⟨hhead, htail⟩
      simp only [List.set]
      refine List.pairwise_cons.mpr ⟨?_, htail⟩
      intro b hb hc
      exact hhead b hb ⟨hkey.1.symm.trans hc.1, hkey.2.symm.trans hc.2⟩
    | succ n =>
      rcases List.pairwise_cons.mp hw with ⟨hhead, htail⟩
      simp only [List.set]
      refine List.pairwise_cons.mpr ⟨?_, ih n (by simpa using hg) htail⟩
      intro b hb
      rcases List.mem_or_eq_of_mem_set hb with h | rfl
      · exact hhead b h
      · intro hc
        have hmem : item ∈ rest := List.get?_mem (by simpa using hg)
        exact hhead item hmem ⟨hc.1.trans hkey.1, hc.2.trans hkey.2⟩

/-- Claim C8: every cart mutation preserves the cart-shape invariants —
each stored line keeps quantity at least 1 and at most one line exists per
(product, variant) key. `addToCart` merges into the first matching line
(same length, no duplicate) instead of creating one, and `updateCartItem`
with quantity 0 deletes the line (length drops by one) instead of storing
a zero-quantity line. -/
theorem cartMutations_preserve_invariants (ps : Products) (cart : Cart)
    (pid : String) (qty : Int) (vid : Option String) (idx : Nat) (q2 : Int)
    (hwf : WellFormedCart cart) :
    (∀ cart2, addToCart ps cart pid qty vid = Except.ok cart2 →
      WellFormedCart cart2
      ∧ ((cart.find? (addMatch pid vid)).isSome = true →
          cart2.length = cart.length))
    ∧ (∀ cart2, updateCartItem ps cart idx q2 = Except.ok cart2 →
      WellFormedCart cart2
      ∧ (q2 = 0 → cart2.length + 1 = cart.length)) := by
  constructor
  · intro cart2 h
    unfold addToCart at h
    split at h
    · exact absurd h (by simp)
    · rename_i hv
      rw [not_not] at hv
      split at h
      · exact absurd h (by simp)
      · rename_i p hp
        split at h
        · exact absurd h (by simp)
        · split at h
          · exact absurd h (by simp)
          · rename_i hact hinv
            split at h
            · rename_i existing hfind
              split at h
              · exact absurd h (by simp)
              · rename_i hcap
                have hc2 : cart2 = updateFirstLine (addMatch pid vid)
                    (fun l => { l with quantity := existing.quantity + qty }) cart := by
                  injection h with h2
                  exact h2.symm
                subst hc2
                refine ⟨⟨?_, ?_⟩, ?_⟩
                · intro l2 hl2
                  rcases mem_updateFirstLine _ _ _ _ hl2 with hm | ⟨l0, hl0, hp0, rfl⟩
                  · exact hwf.1 l2 hm
                  · have hex : existing ∈ cart := List.mem_of_find?_eq_some hfind
                    have h1 : 1 ≤ existing.quantity := hwf.1 existing hex
                    show 1 ≤ existing.quantity + qty
                    omega
                · exact pairwise_updateFirstLine _ _ _ (fun l => ⟨rfl, rfl⟩) hwf.2
                · intro _
                  exact length_updateFirstLine _ _ _
            · rename_i hfind
              have hc2 : cart2 = cart ++ [⟨pid, vid, qty⟩] := by
                injection h with h2
                exact h2.symm
              subst hc2
              refine ⟨⟨?_, ?_⟩, ?_⟩
              · intro l2 hl2
                rcases List.mem_append.mp hl2 with hm | hm
                · exact hwf.1 l2 hm
                · have hx : l2 = ⟨pid, vid, qty⟩ := by simpa using hm
                  subst hx
                  show 1 ≤ qty
                  omega
              · rw [List.pairwise_append]
                refine ⟨hwf.2, by simp, ?_⟩
                intro a ha b hb
                have hbx : b = ⟨pid, vid, qty⟩ := by simpa using hb
                subst hbx
                intro hc
                exact absurd (sameKey_addMatch pid vid qty a hc)
                  (by simpa using List.find?_eq_none.mp hfind a ha)
              · intro hsome
                rw [hfind] at hsome
                simp at hsome
  · intro cart2 h
    unfold updateCartItem at h
    split at h
    · exact absurd h (by simp)
    · rename_i hv
      rw [not_not] at hv
      split at h
      · exact absurd h (by simp)
      · rename_i item hget
        split at h
        · rename_i hq0
          have hc2 : cart2 = cart.eraseIdx idx := by
            injection h with h2
            exact h2.symm
          subst hc2
          have hlt : idx < cart.length := by
            rcases List.get?_eq_some.mp hget with ⟨hl, _⟩
            exact hl
          refine ⟨⟨?_, ?_⟩, ?_⟩
          · intro l2 hl2
            exact hwf.1 l2 ((List.eraseIdx_sublist cart idx).subset hl2)
          · exact hwf.2.sublist (List.eraseIdx_sublist cart idx)
          · intro _
            exact List.length_eraseIdx_add_one hlt
        · rename_i hq0
          split at h
          · exact absurd h (by simp)
          · rename_i p hpp
            split at h
            · exact absurd h (by simp)
            · rename_i hinv
              have hc2 : cart2 = cart.set idx { item with quantity := q2 } := by
                injection h with h2
                exact h2.symm
              subst hc2
              refine ⟨⟨?_, ?_⟩, ?_⟩
              · intro l2 hl2
                rcases List.mem_or_eq_of_mem_set hl2 with hm | rfl
                · exact hwf.1 l2 hm
                · show 1 ≤ q2
                  omega
              · exact pairwise_set_key cart idx item _ hget ⟨rfl, rfl⟩ hwf.2
              · intro hz
                exact absurd hz hq0

/-- Witness for C8: adding 2 more units of A to a cart already holding A:1
merges into the existing line, yielding the well-formed cart A:3 of the
same length. -/
theorem cartMutations_preserve_invariants_witness :
    WellFormedCart [⟨"A", none, 3⟩]
    ∧ ([(⟨"A", none, 3⟩ : CartLine)]).length
        = ([(⟨"A", none, 1⟩ : CartLine)]).length := by
  have h := (cartMutations_preserve_invariants demoProducts [⟨"A", none, 1⟩]
    ("A") 2 none 0 0 ⟨by simp, by simp⟩).1 [⟨"A", none, 3⟩] rfl
  exact ⟨h.1, h.2 rfl⟩

theorem addMatch_quantity_update (pid : String) (vid : Option String)
    (l : CartLine) (n : Int) :
    addMatch pid vid { l with quantity := n } = addMatch pid vid l := by
  cases vid <;> simp [addMatch]


theorem find?_updateFirstLine (p : CartLine → Bool) (f : CartLine → CartLine)
    (c : Cart) (x : CartLine) (hfind : c.find? p = some x)
    (hpf : p (f x) = true) :
    (updateFirstLine p f c).find? p = some (f x) := by
  induction c with
  | nil => simp [List.find?] at hfind
  | cons l rest ih =>
    by_cases hl : p l = true
    · have hx : x = l := by
        rw [List.find?_cons_of_pos rest hl] at hfind
        exact (Option.some.injEq _ _ ▸ hfind).symm
      subst hx
      rw [show updateFirstLine p f (x :: rest) = f x :: rest from by
        simp [updateFirstLine, hl]]
      exact List.find?_cons_of_pos rest hpf
    · have hfind2 : rest.find? p = some x := by
        rw [List.find?_cons_of_neg rest (by simpa using hl)] at hfind
        exact hfind
      rw [show updateFirstLine p f (l :: rest) = l :: updateFirstLine p f rest from by
        simp [updateFirstLine, hl]]
      rw [List.find?_cons_of_neg _ (by simpa using hl)]
      exact ih hfind2

/-- Claim C9: cart mutations are capped by the inventory read during the
operation. `addToCart` fails with the insufficient-inventory error when the
requested quantity — or the sum of the existing matching line's quantity
and the requested quantity — exceeds the product's inventory, leaving the
cart unreturned/unchanged; `updateCartItem` fails likewise for a nonzero
quantity above inventory; and after every successful mutation the mutated
line's stored quantity is at most the inventory observed during the
operation. -/
theorem cartMutations_capped_by_stock (ps : Products) (cart : Cart)
    (pid : String) (qty : Int) (vid : Option String) (idx : Nat) (q2 : Int)
    (p : Product) (hp : ps pid = some p) (hact : p.isActive = true) :
    ((1 ≤ qty ∧ qty ≤ 100) → p.inventory < qty →
      addToCart ps cart pid qty vid
        = Except.error CartError.InsufficientInventory)
    ∧ (∀ existing, (1 ≤ qty ∧ qty ≤ 100) →
        cart.find? (addMatch pid vid) = some existing →
        p.inventory < existing.quantity + qty →
        addToCart ps cart pid qty vid
          = Except.error CartError.InsufficientInventory)
    ∧ (∀ cart2, addToCart ps cart pid qty vid = Except.ok cart2 →
        ∃ l, cart2.find? (addMatch pid vid) = some l
          ∧ l.quantity ≤ p.inventory)
    ∧ (∀ item, (0 ≤ q2 ∧ q2 ≤ 100) → q2 ≠ 0 →
        cart.get? idx = some item → item.productId = pid →
        p.inventory < q2 →
        updateCartItem ps cart idx q2
          = Except.error CartError.InsufficientInventory)
    ∧ (∀ cart2 item, updateCartItem ps cart idx q2 = Except.ok cart2 →
        q2 ≠ 0 → cart.get? idx = some item → item.productId = pid →
        cart2.get? idx = some { item with quantity := q2 }
          ∧ q2 ≤ p.inventory) := by
  refine ⟨?_, ?_, ?_, ?_, ?_⟩
  · intro hval hshort
    simp [addToCart, hval.1, hval.2, hp, hact, hshort]
  · intro existing hval hfind hcap
    by_cases hshort : p.inventory < qty
    · simp [addToCart, hval.1, hval.2, hp, hact, hshort]
    · simp [addToCart, hval.1, hval.2, hp, hact, hshort, hfind, hcap]
  · intro cart2 h
    unfold addToCart at h
    split at h
    · exact absurd h (by simp)
    · split at h
      · exact absurd h (by simp)
      · rename_i p2 hp2
        have hpe : p = p2 := Option.some_inj.mp (hp.symm.trans hp2)
        subst hpe
        split at h
        · exact absurd h (by simp)
        · split at h
          · exact absurd h (by simp)
          · rename_i hinv
            split at h
            · rename_i existing hfind
              split at h
              · exact absurd h (by simp)
              · rename_i hcap
                have hc2 : cart2 = updateFirstLine (addMatch pid vid)
                    (fun l => { l with quantity := existing.quantity + qty })
                    cart := by
                  injection h with h2
                  exact h2.symm
                subst hc2
                refine ⟨{ existing with quantity := existing.quantity + qty },
                  ?_, ?_⟩
                · exact find?_updateFirstLine _ _ cart existing hfind
                    (by rw [addMatch_quantity_update]
                        exact List.find?_some hfind)
                · show existing.quantity + qty ≤ p.inventory
                  omega
            · rename_i hfind
              have hc2 : cart2 = cart ++ [⟨pid, vid, qty⟩] := by
                injection h with h2
                exact h2.symm
              subst hc2
              refine ⟨⟨pid, vid, qty⟩, ?_, ?_⟩
              · rw [List.find?_append, hfind]
                have hm : addMatch pid vid ⟨pid, vid, qty⟩ = true := by
                  cases vid <;> simp [addMatch]
                simp [hm]
              · show qty ≤ p.inventory
                omega
  · intro item hval hq0 hget hpid hshort
    unfold updateCartItem
    rw [if_neg (not_not_intro hval), hget]
    simp only [hq0, if_false]
    rw [hpid, hp]
    simp [hshort]
  · intro cart2 item h hq0 hget hpid
    unfold updateCartItem at h
    split at h
    · exact absurd h (by simp)
    · split at h
      · exact absurd h (by simp)
      · rename_i item2 hget2
        have hie : item = item2 := Option.some_inj.mp (hget.symm.trans hget2)
        subst hie
        split at h
        · exact absurd h (by simp)
        · rename_i p2 hpp
          rw [hpid] at hpp
          have hpe : p = p2 := Option.some_inj.mp (hp.symm.trans hpp)
          subst hpe
          split at h
          · exact absurd h (by simp)
          · rename_i hinv
            have hc2 : cart2 = cart.set idx { item with quantity := q2 } := by
              injection h with h2
              exact h2.symm
            subst hc2
            constructor
            · have hlt : idx < cart.length := (List.get?_eq_some.mp hget).1
              rw [List.get?_eq_getElem?]
              rw [List.getElem?_set_self (by simpa using hlt)]
            · omega

/-- Witness for C9: adding 2 units of product B (1 in stock) to an empty
cart fails with the insufficient-inventory error. -/
theorem cartMutations_capped_by_stock_witness :
    addToCart demoProducts [] ("B") 2 none
      = Except.error CartError.InsufficientInventory :=
  (cartMutations_capped_by_stock demoProducts [] ("B") 2 none 0 0
    { inventory := 1, isActive := true, price := 20 } (by decide) (by decide)).1
    (by decide) (by decide)
